import Mathlib

/-!
Shallow embedding of the core of the `daily-research-digest` repository
(paper aggregation, deduplication, ranking, quality blending, seen-paper
memory, and the idempotent send pipeline), together with theorems that
settle the specification claims against the code.

Modelling conventions:
* Python `float` is modelled by `ℚ` (exact arithmetic; all scores in the
  program are small decimal values where IEEE rounding plays no role in
  any claim considered here).
* Python `int` is modelled by `Int`, `str` by `String`, `list` by `List`,
  `None`-able values by `Option`.
* Exceptions are modelled by `Except String`; an uncaught exception is an
  `Except.error` propagating outward.
* I/O collaborators (HTTP fetches, the LLM call, file reads/writes) are
  modelled by explicit environment records supplying their outcomes, and
  by effect traces recording which collaborator calls were performed.
-/

/-- Bool test: does `p` occur at the head of `l` (char-list version of
Python substring matching support). -/
def charsStartWith : List Char → List Char → Bool
  | [], _ => true
  | _ :: _, [] => false
  | a :: as, b :: bs => a == b && charsStartWith as bs

/-- Bool test: does `needle` occur contiguously anywhere in `hay`.
Models Python's `needle in hay` on strings. -/
def charsHasSub (needle : List Char) : List Char → Bool
  | [] => needle.isEmpty
  | b :: bs => charsStartWith needle (b :: bs) || charsHasSub needle bs

/-- Python `needle in hay` for strings (substring containment). -/
def strHasSub (needle hay : String) : Bool :=
  charsHasSub needle.data hay.data

/-- Python `str.lower()` (the claims only exercise it on ASCII text,
where `Char.toLower` agrees with Python). -/
def pyLower (s : String) : String :=
  ⟨s.data.map Char.toLower⟩

/-- Drop leading whitespace characters. -/
def dropWhileWs : List Char → List Char
  | [] => []
  | c :: cs => if c.isWhitespace then dropWhileWs cs else c :: cs

/-- Python `str.strip()`: remove leading and trailing whitespace. -/
def pyStrip (s : String) : String :=
  ⟨(dropWhileWs ((dropWhileWs s.data).reverse)).reverse⟩

/-- Lexicographic code-point comparison of char lists: the `str` order
Python's `sorted` uses. -/
def charListLeB : List Char → List Char → Bool
  | [], _ => true
  | _ :: _, [] => false
  | a :: as, b :: bs => if a < b then true else if a = b then charListLeB as bs else false

/-- The Python `str` total order, as a relation on `String`. -/
def pyStrLe (a b : String) : Prop := charListLeB a.data b.data = true

instance : DecidableRel pyStrLe := fun a b =>
  inferInstanceAs (Decidable (charListLeB a.data b.data = true))

instance : IsTotal String pyStrLe := by
  constructor
  intro a b
  cases a with | mk d1 =>
  cases b with | mk d2 =>
  show charListLeB d1 d2 = true ∨ charListLeB d2 d1 = true
  induction d1 generalizing d2 with
  | nil => left; rfl
  | cons x xs ih =>
    cases d2 with
    | nil => right; rfl
    | cons y ys =>
      rcases lt_trichotomy x y with h | h | h
      · left; simp [charListLeB, h]
      · subst h
        rcases ih ys with h' | h'
        · left; simpa [charListLeB, lt_irrefl] using h'
        · right; simpa [charListLeB, lt_irrefl] using h'
      · right; simp [charListLeB, h]

instance : IsTrans String pyStrLe := by
  constructor
  intro a b c
  cases a with | mk d1 =>
  cases b with | mk d2 =>
  cases c with | mk d3 =>
  show charListLeB d1 d2 = true → charListLeB d2 d3 = true → charListLeB d1 d3 = true
  induction d1 generalizing d2 d3 with
  | nil => intro _ _; rfl
  | cons x xs ih =>
    intro h1 h2
    cases d2 with
    | nil => simp [charListLeB] at h1
    | cons y ys =>
      cases d3 with
      | nil => simp [charListLeB] at h2
      | cons z zs =>
        by_cases hxy : x < y
        · by_cases hyz : y < z
          · simp [charListLeB, lt_trans hxy hyz]
          · by_cases hyz2 : y = z
            · subst hyz2; simp [charListLeB, hxy]
            · simp [charListLeB, hyz, hyz2] at h2
        · by_cases hxy2 : x = y
          · subst hxy2
            simp only [charListLeB, lt_irrefl, if_false, if_pos rfl] at h1
            by_cases hxz : x < z
            · simp [charListLeB, hxz]
            · by_cases hxz2 : x = z
              · subst hxz2
                simp only [charListLeB, lt_irrefl, if_false, if_pos rfl] at h2 ⊢
                exact ih ys zs h1 h2
              · simp [charListLeB, hxz, hxz2] at h2
          · simp [charListLeB, hxy, hxy2] at h1

instance : IsAntisymm String pyStrLe := by
  constructor
  intro a b
  cases a with | mk d1 =>
  cases b with | mk d2 =>
  show charListLeB d1 d2 = true → charListLeB d2 d1 = true → String.mk d1 = String.mk d2
  induction d1 generalizing d2 with
  | nil =>
    intro _ h2
    cases d2 with
    | nil => rfl
    | cons y ys => simp [charListLeB] at h2
  | cons x xs ih =>
    intro h1 h2
    cases d2 with
    | nil => simp [charListLeB] at h1
    | cons y ys =>
      by_cases hxy : x < y
      · simp [charListLeB, asymm hxy, (ne_of_lt hxy).symm] at h2
      · by_cases hxy2 : x = y
        · subst hxy2
          simp only [charListLeB, lt_irrefl, if_false, if_pos rfl] at h1 h2
          have hd : xs = ys := congrArg String.data (ih ys h1 h2)
          exact congrArg (fun l => String.mk (x :: l)) hd
        · simp [charListLeB, hxy, hxy2] at h1

/-- Maximum of a list of integers with a default for the empty list;
models Python `max(xs)` guarded by emptiness checks at the call sites. -/
def listMaxInt (d : Int) : List Int → Int
  | [] => d
  | h :: t => t.foldl max h

/-- `models.Paper` (daily_research_digest/models.py).  The
`huggingface_upvotes` field is the one written by
`sources/huggingface.py` and read by `quality.py` in this code base. -/
structure Paper where
  arxiv_id : String
  title : String
  abstract : String
  authors : List String
  categories : List String
  published : String
  updated : String
  link : String
  relevance_score : ℚ := 0
  relevance_reason : String := ""
  author_h_indices : Option (List Int) := none
  huggingface_upvotes : Option Int := none
  quality_score : Option ℚ := none
deriving DecidableEq, Repr

/-- The `h_factor` local of `compute_quality_score` (quality.py lines
32-35): the normalized average h-index, computed when the h-index list is
truthy (non-`None` and non-empty), capped at 1 from above only. -/
def h_factor (paper : Paper) (max_h_index : ℚ) : ℚ :=
  match paper.author_h_indices with
  | some hs =>
      if hs.isEmpty then 0
      else min (((hs.sum : ℤ) : ℚ) / (hs.length : ℚ) / max_h_index) 1
  | none => 0

/-- The `upvotes_factor` local of `compute_quality_score` (quality.py
lines 38-40): the normalized upvote count when present and positive. -/
def upvotes_factor (paper : Paper) (max_upvotes : ℚ) : ℚ :=
  match paper.huggingface_upvotes with
  | some u => if 0 < u then min ((u : ℚ) / max_upvotes) 1 else 0
  | none => 0

/-- `quality.compute_quality_score` (daily_research_digest/quality.py,
lines 11-45): the boost is `0.1 * h_factor + 0.1 * upvotes_factor` and
the result is `relevance_score * (1 + boost)`. -/
def compute_quality_score (paper : Paper) (max_h_index max_upvotes : ℚ) : ℚ :=
  let llm_relevance := paper.relevance_score
  let quality_boost :=
    (1 / 10 : ℚ) * h_factor paper max_h_index
      + (1 / 10 : ℚ) * upvotes_factor paper max_upvotes
  llm_relevance * (1 + quality_boost)

/-- Python truthiness of an `Option (List α)` field
(`None` and `[]` are falsy). -/
def optListTruthy {α : Type} : Option (List α) → Bool
  | some (_ :: _) => true
  | _ => false

/-- `quality.compute_quality_scores` (daily_research_digest/quality.py,
lines 48-92): auto-detects normalization ceilings from the batch when not
supplied (defaulting to 100 when no signal is present), floors both
ceilings at 1, and populates `quality_score` on every paper. -/
def compute_quality_scores (papers : List Paper)
    (max_h_index? max_upvotes? : Option ℚ) : List Paper :=
  if papers.isEmpty then papers
  else
    let all_h_indices : List Int :=
      (papers.filter (fun p => optListTruthy p.author_h_indices)).flatMap
        (fun p => p.author_h_indices.getD [])
    let mh : ℚ :=
      match max_h_index? with
      | some m => m
      | none => if all_h_indices.isEmpty then 100 else ((listMaxInt 0 all_h_indices : ℤ) : ℚ)
    let all_upvotes : List Int :=
      (papers.filter (fun p =>
        match p.huggingface_upvotes with
        | some u => decide (0 < u)
        | none => false)).filterMap (fun p => p.huggingface_upvotes)
    let mu : ℚ :=
      match max_upvotes? with
      | some m => m
      | none => if all_upvotes.isEmpty then 100 else ((listMaxInt 0 all_upvotes : ℤ) : ℚ)
    let max_h_index := max mh 1
    let max_upvotes := max mu 1
    papers.map (fun p =>
      { p with quality_score := some (compute_quality_score p max_h_index max_upvotes) })

/-! ### Relevance ranker: the per-paper parse-failure policy
(arxiv_digest/ranker.py, `PaperRanker.rank_paper`, lines 49-66).

The LLM call and `json.loads` are external collaborators; their outcome is
the input of the embedded decision procedure.  `ParsedResponse` is the
result of `json.loads` applied to the (fence-stripped) response content:
either a decode error, a JSON value that is not an object (on which the
subsequent `.get` raises `AttributeError`), or an object given as its
key/value pairs. -/

/-- A JSON scalar/aggregate value as far as `rank_paper` inspects it.
`jcomposite` stands for any array or nested object (Python `float()`
raises `TypeError` on those, as it does on `None`). -/
inductive JsonVal
  | jnull
  | jbool (b : Bool)
  | jnum (q : ℚ)
  | jstr (s : String)
  | jcomposite
deriving DecidableEq, Repr

/-- Outcome of `json.loads` on the response content. -/
inductive ParsedResponse
  | parseError
  | parsedNonDict
  | parsed (obj : List (String × JsonVal))
deriving DecidableEq, Repr

/-- The Python exceptions distinguishable in `rank_paper`'s `except`
clause (`json.JSONDecodeError, KeyError, ValueError` are caught;
`TypeError` and `AttributeError` are not). -/
inductive PyExn
  | typeError
  | valueError
  | attributeError
deriving DecidableEq, Repr

/-- All-digit check used by the decimal-literal model of `float(str)`. -/
def digitsVal : List Char → Option ℕ
  | [] => none
  | cs => cs.foldl (fun acc c =>
      match acc with
      | none => none
      | some n => if c.isDigit then some (10 * n + (c.toNat - '0'.toNat)) else none)
      (some 0)

/-- Model of Python `float(s)` on plain decimal literals
(optional sign, digits, optional fractional part); other strings raise
`ValueError`.  (Exponents/`inf`/`nan` never occur in the claims here.) -/
def pyFloatOfString (s : String) : Option ℚ :=
  let t := pyStrip s
  let core : List Char → Option ℚ := fun cs =>
    match cs.splitOn '.' with
    | [intPart] => (digitsVal intPart).map (fun n => (n : ℚ))
    | [intPart, fracPart] =>
        match digitsVal intPart, digitsVal fracPart with
        | some n, some f => some ((n : ℚ) + (f : ℚ) / ((10 : ℚ) ^ fracPart.length))
        | _, _ => none
    | _ => none
  match t.data with
  | '-' :: rest => (core rest).map Neg.neg
  | '+' :: rest => core rest
  | cs => core cs

/-- Model of Python `float(x)` on a JSON value: numbers pass through,
booleans coerce, numeric strings parse (else `ValueError`), `None` and
composites raise `TypeError`. -/
def pyFloat : JsonVal → Except PyExn ℚ
  | .jnum q => .ok q
  | .jbool b => .ok (if b then 1 else 0)
  | .jstr s =>
      match pyFloatOfString s with
      | some q => .ok q
      | none => .error .valueError
  | .jnull => .error .typeError
  | .jcomposite => .error .typeError

/-- Python `dict.get(key, default)` on the association-list model. -/
def objGet (obj : List (String × JsonVal)) (key : String) (d : JsonVal) : JsonVal :=
  match obj.find? (fun kv => kv.1 == key) with
  | some kv => kv.2
  | none => d

/-- String projection of the value Python stores into the (dynamically
typed) `relevance_reason` attribute; conforming responses always carry a
string here. -/
def jsonValAsPyStr : JsonVal → String
  | .jstr s => s
  | .jnum q => toString q
  | .jbool b => if b then "True" else "False"
  | .jnull => "None"
  | .jcomposite => "<composite>"

/-- `PaperRanker.rank_paper` (arxiv_digest/ranker.py lines 49-66),
given the outcome of `json.loads` on the stripped response content:
tries `float(result.get("score", 0))` and `result.get("reason", "")`;
`json.JSONDecodeError`/`KeyError`/`ValueError` fall back to score `5.0`
and reason `"Unable to rank"`; other exceptions propagate. -/
def rank_paper (paper : Paper) (resp : ParsedResponse) : Except PyExn Paper :=
  match resp with
  | .parseError => .ok { paper with relevance_score := 5, relevance_reason := "Unable to rank" }
  | .parsedNonDict => .error .attributeError
  | .parsed obj =>
      match pyFloat (objGet obj "score" (.jnum 0)) with
      | .ok q =>
          .ok { paper with relevance_score := q,
                           relevance_reason := jsonValAsPyStr (objGet obj "reason" (.jstr "")) }
      | .error .valueError =>
          .ok { paper with relevance_score := 5, relevance_reason := "Unable to rank" }
      | .error e => .error e

/-! ### Digest generator (daily_research_digest/digest.py) -/

/-- `models.DateFilter`. -/
structure DateFilter where
  days_back : Option Int := none
  published_after : Option String := none
  published_before : Option String := none
deriving DecidableEq, Repr

/-- `models.DigestConfig`. -/
structure DigestConfig where
  categories : List String
  interests : String
  max_papers : ℕ := 50
  top_n : ℕ := 10
  date_filter : Option DateFilter := none
  exclude_seen : Bool := true
  priority_authors : Option (List String) := none
  author_boost : ℚ := 3 / 2
  sources : Option (List String) := none
  semantic_scholar_api_key : Option String := none
  llm_provider : String := "anthropic"
  anthropic_api_key : Option String := none
  openai_api_key : Option String := none
  google_api_key : Option String := none
deriving Repr

/-- `models.DigestState`; `last_digest` holds the completion timestamp
(modelled as its ISO string). -/
structure DigestState where
  last_digest : Option String := none
  is_generating : Bool := false
  errors : List String := []
deriving DecidableEq, Repr

/-- The digest dictionary built by `DigestGenerator.generate`
(`to_dict` of each paper is modelled by the paper record itself). -/
structure DigestDoc where
  date : String
  generated_at : String
  categories : List String
  interests : String
  total_papers_fetched : ℕ
  papers : List Paper
deriving DecidableEq, Repr

/-- The return value of `DigestGenerator.generate`. -/
inductive GenResult
  | alreadyGenerating
  | genError (errors : List String)
  | completed (digest : DigestDoc)
deriving DecidableEq, Repr

/-- Collaborator calls performed during a `generate` run. -/
inductive GenEffect
  | fetchArxiv
  | fetchHuggingFace
  | fetchSemanticScholar
  | memRecordMany (ids : List String)
  | storageSave
deriving DecidableEq, Repr

/-- Outcomes of the awaited collaborators of one `generate` run:
the three source fetches, `get_llm_for_provider`, the ranker, the
memory write and the storage write (`Except.error` = raised). -/
structure GenEnv where
  arxivResult : Except String (List Paper)
  hfResult : Except String (List Paper)
  ssResult : Except String (List Paper)
  llmResult : Except String Unit
  rankResult : List Paper → Except String (List Paper)
  recordResult : Except String Unit
  saveResult : Except String Unit
  nowDate : String
  nowIso : String

/-- `DigestGenerator._add_unique_papers` (daily_research_digest/digest.py
lines 43-51): append the papers whose id is not yet in `seen_ids`,
extending `seen_ids`; returns the count added. -/
def add_unique_papers (papers : List Paper) (new_papers : List Paper)
    (seen_ids : List String) : List Paper × List String × ℕ :=
  match new_papers with
  | [] => (papers, seen_ids, 0)
  | p :: rest =>
      if seen_ids.contains p.arxiv_id then
        add_unique_papers papers rest seen_ids
      else
        let r := add_unique_papers (papers ++ [p]) rest (seen_ids ++ [p.arxiv_id])
        (r.1, r.2.1, r.2.2 + 1)

/-- Descending relevance order used by `list.sort(key=..., reverse=True)`
in the ranker and the boost phase. -/
def byRelevanceDesc (p q : Paper) : Prop := q.relevance_score ≤ p.relevance_score

instance : DecidableRel byRelevanceDesc := fun p q =>
  inferInstanceAs (Decidable (q.relevance_score ≤ p.relevance_score))

instance : IsTotal Paper byRelevanceDesc :=
  ⟨fun p q => le_total q.relevance_score p.relevance_score⟩

instance : IsTrans Paper byRelevanceDesc :=
  ⟨fun _ _ _ h1 h2 => le_trans h2 h1⟩

/-- The per-paper boost of the priority-author phase (digest.py lines
135-143): case-insensitive substring match of any priority author inside
any paper author multiplies `relevance_score` by the boost factor. -/
def applyBoost (priority_authors : List String) (author_boost : ℚ)
    (ranked : List Paper) : List Paper :=
  let priority_lower := priority_authors.map pyLower
  ranked.map (fun paper =>
    let authors_lower := paper.authors.map pyLower
    if priority_lower.any (fun pr => authors_lower.any (fun au => strHasSub pr au)) then
      { paper with relevance_score := paper.relevance_score * author_boost }
    else paper)

/-- The priority-author boost phase of `generate` (digest.py lines
134-145): apply the boost, then stably re-sort by descending relevance
(`list.sort(key=..., reverse=True)`, a stable sort). -/
def boostPhase (priority_authors : List String) (author_boost : ℚ)
    (ranked : List Paper) : List Paper :=
  List.insertionSort byRelevanceDesc (applyBoost priority_authors author_boost ranked)

/-- The `ranked_papers` list after the optional boost phase of
`generate` (digest.py lines 134-145): the boost-and-resort runs only when
`config.priority_authors` is truthy (non-`None` and non-empty). -/
def rankedAfterBoost (config : DigestConfig) (ranked_papers : List Paper) : List Paper :=
  match config.priority_authors with
  | none => ranked_papers
  | some [] => ranked_papers
  | some (a :: as) => boostPhase (a :: as) config.author_boost ranked_papers

/-- The post-boost, pre-sort paper list: the ranker's output with the
priority-author boost applied when one is configured (the input of the
final sort of digest.py line 145). -/
def boostedPapers (config : DigestConfig) (ranked_papers : List Paper) : List Paper :=
  match config.priority_authors with
  | none => ranked_papers
  | some [] => ranked_papers
  | some (a :: as) => applyBoost (a :: as) config.author_boost ranked_papers

/-- `S` is the stable descending-relevance sort of `L`: it is a
permutation of `L`, it is ordered by `relevance_score` descending, and
ties are broken by `L`'s order — for every key value, the sublist of
papers carrying that `relevance_score` is exactly as in `L`.  These
three conditions determine `S` uniquely
(`isStableRelevanceDescSort_unique`). -/
def isStableRelevanceDescSort (L S : List Paper) : Prop :=
  L.Perm S
  ∧ List.Sorted byRelevanceDesc S
  ∧ ∀ k : ℚ, S.filter (fun p => decide (p.relevance_score = k))
      = L.filter (fun p => decide (p.relevance_score = k))

/-- The fetch-and-merge phase of `generate` (digest.py lines 74-103):
the three conditional source fetches in declaration order, merged through
`_add_unique_papers`; a raised fetch propagates as `Except.error`. -/
def generateFetchPhase (env : GenEnv) (sources : List String) :
    (Except String (List Paper × List String)) × List GenEffect :=
  -- fetch from arXiv
  let step1 : (Except String (List Paper × List String)) × List GenEffect :=
    if sources.contains "arxiv" then
      match env.arxivResult with
      | .ok ps =>
          let r := add_unique_papers [] ps []
          (.ok (r.1, r.2.1), [GenEffect.fetchArxiv])
      | .error e => (.error e, [GenEffect.fetchArxiv])
    else (.ok ([], []), [])
  match step1 with
  | (.error e, tr) => (.error e, tr)
  | (.ok (papers1, seen1), tr1) =>
    -- fetch from HuggingFace
    let step2 : (Except String (List Paper × List String)) × List GenEffect :=
      if sources.contains "huggingface" then
        match env.hfResult with
        | .ok ps =>
            let r := add_unique_papers papers1 ps seen1
            (.ok (r.1, r.2.1), tr1 ++ [GenEffect.fetchHuggingFace])
        | .error e => (.error e, tr1 ++ [GenEffect.fetchHuggingFace])
      else (.ok (papers1, seen1), tr1)
    match step2 with
    | (.error e, tr) => (.error e, tr)
    | (.ok (papers2, seen2), tr2) =>
      -- fetch from Semantic Scholar
      if sources.contains "semantic_scholar" then
        match env.ssResult with
        | .ok ps =>
            let r := add_unique_papers papers2 ps seen2
            (.ok (r.1, r.2.1), tr2 ++ [GenEffect.fetchSemanticScholar])
        | .error e => (.error e, tr2 ++ [GenEffect.fetchSemanticScholar])
      else (.ok (papers2, seen2), tr2)

/-- The tail of `generate` after the fetch phase (digest.py lines
105-170): empty-merge business error, optional seen-paper filtering,
LLM construction, ranking, boost, truncation, digest assembly, memory
recording, and storage save. -/
def generatePostFetch (env : GenEnv) (memory : Option (List String))
    (config : DigestConfig) (ld0 : Option String)
    (papersAll : List Paper) (tr3 : List GenEffect) :
    GenResult × List String × Option String × List GenEffect :=
  if papersAll.isEmpty then
    (GenResult.genError ["No papers fetched from any source"],
     ["No papers fetched from any source"], ld0, tr3)
  else
    -- memory filter (`if self.memory and config.exclude_seen`)
    let filtered : Except String (List Paper) :=
      match memory with
      | some seen =>
          if config.exclude_seen then
            let arxiv_ids := papersAll.map (fun p => p.arxiv_id)
            let unseen_ids := arxiv_ids.filter (fun i => ¬ seen.contains i)
            let papersF := papersAll.filter (fun p => unseen_ids.contains p.arxiv_id)
            if papersF.isEmpty then .error "No unseen papers after filtering"
            else .ok papersF
          else .ok papersAll
      | none => .ok papersAll
    match filtered with
    | .error msg => (GenResult.genError [msg], [msg], ld0, tr3)
    | .ok papersF =>
      -- `get_llm_for_provider` may raise (missing key / unknown provider)
      match env.llmResult with
      | .error e => (GenResult.genError [e], [e], ld0, tr3)
      | .ok _ =>
        match env.rankResult papersF with
        | .error e => (GenResult.genError [e], [e], ld0, tr3)
        | .ok ranked_papers =>
          -- priority-author boost (`if config.priority_authors`)
          let ranked2 : List Paper := rankedAfterBoost config ranked_papers
          let top_papers := ranked2.take config.top_n
          let digest : DigestDoc :=
            { date := env.nowDate
              generated_at := env.nowIso
              categories := config.categories
              interests := config.interests
              total_papers_fetched := papersF.length
              papers := top_papers }
          -- record in memory, then save, then set `last_digest`
          let recordStep : Except String Unit × List GenEffect :=
            match memory with
            | some _ =>
                (env.recordResult,
                 tr3 ++ [GenEffect.memRecordMany (top_papers.map (fun p => p.arxiv_id))])
            | none => (.ok (), tr3)
          match recordStep with
          | (.error e, tr) => (GenResult.genError [e], [e], ld0, tr)
          | (.ok _, tr4) =>
            match env.saveResult with
            | .error e =>
                (GenResult.genError [e], [e], ld0, tr4 ++ [GenEffect.storageSave])
            | .ok _ =>
                (GenResult.completed digest, [], some env.nowIso,
                 tr4 ++ [GenEffect.storageSave])

/-- The body of `DigestGenerator.generate` (the `try`/`except` block,
daily_research_digest/digest.py lines 68-175), given the outcomes of the
collaborators.  Returns the result value, the error list accumulated in
`self.state.errors` (cleared on entry), the value of `last_digest` at
return time (`ld0` is its prior value), and the collaborator-call trace.
The generic `except Exception` clause turns any raised exception into
`{"status": "error"}` with the message appended to the error list. -/
def generateBody (env : GenEnv) (memory : Option (List String))
    (config : DigestConfig) (ld0 : Option String) :
    GenResult × List String × Option String × List GenEffect :=
  -- `sources = config.sources or ["arxiv"]` (an empty list is falsy)
  let sources : List String :=
    match config.sources with
    | none => ["arxiv"]
    | some [] => ["arxiv"]
    | some (s :: ss) => s :: ss
  match generateFetchPhase env sources with
  | (.error e, tr) => (GenResult.genError [e], [e], ld0, tr)
  | (.ok (papersAll, _), tr3) => generatePostFetch env memory config ld0 papersAll tr3

/-- `DigestGenerator.generate` (daily_research_digest/digest.py lines
53-177).  If `is_generating` is set, returns `already_generating` at once
without touching anything; otherwise sets the flag, clears the errors,
runs the body, and — via the `finally` block — unconditionally resets
`is_generating` before returning.  `memory` is the generator's optional
`PaperMemory`, modelled by its loaded seen-id set. -/
def generate (env : GenEnv) (memory : Option (List String))
    (config : DigestConfig) (state : DigestState) :
    GenResult × DigestState × List GenEffect :=
  if state.is_generating then
    (GenResult.alreadyGenerating, state, [])
  else
    let r := generateBody env memory config state.last_digest
    (r.1,
     { state with errors := r.2.1, last_digest := r.2.2.1, is_generating := false },
     r.2.2.2)

/-! ### Idempotent send: digest identity and sent-marker state backend
(daily_research_digest/digest_state.py) -/

/-- The normalized content hashed by `compute_digest_id`
(digest_state.py lines 32-38).  The function returns the first 16 hex
characters of the SHA-256 of the canonical JSON encoding of this record;
the encoding is injective on it and SHA-256 is deterministic, so digest
identity is modelled by this record itself — two parameter sets get the
same digest ID exactly when their normalized contents coincide (up to
hash collisions, which the design ignores). -/
structure DigestIdContent where
  window_start : String
  window_end : String
  recipients : List String
  subject_template : String
deriving DecidableEq, Repr

/-- `compute_digest_id` (digest_state.py lines 12-44), with the two
`datetime` arguments given by their `isoformat()` strings: recipients are
lowercased, stripped, and sorted; the subject template is stripped. -/
def compute_digest_id (window_start window_end : String)
    (recipients : List String) (subject_template : String) : DigestIdContent :=
  { window_start := window_start
    window_end := window_end
    recipients :=
      List.insertionSort pyStrLe
        (recipients.map (fun r => pyStrip (pyLower r)))
    subject_template := pyStrip subject_template }

/-- Contents of the `LocalFileStateBackend` state file
(`.digest_state/sent.json`): absent, unparsable, or a JSON object whose
optional `"sent"` key holds a list of digest IDs. -/
inductive SentFile
  | absent
  | corrupt
  | stored (sent? : Option (List String))
deriving DecidableEq, Repr

/-- `LocalFileStateBackend._load_state` followed by `.get("sent", [])`
(digest_state.py lines 90-99): a missing or unparsable file yields the
empty marker list (`_load_state` catches `JSONDecodeError`/`OSError`). -/
def load_sent : SentFile → List String
  | .absent => []
  | .corrupt => []
  | .stored none => []
  | .stored (some l) => l

/-- `LocalFileStateBackend.already_sent` (digest_state.py lines 105-115). -/
def already_sent (file : SentFile) (digest_id : String) : Bool :=
  (load_sent file).contains digest_id

/-- `LocalFileStateBackend.mark_sent` (digest_state.py lines 117-129):
appends the ID and rewrites the file unless the ID is already present
(in which case the file is left untouched). -/
def mark_sent (file : SentFile) (digest_id : String) : SentFile :=
  let sent_list := load_sent file
  if sent_list.contains digest_id then file
  else .stored (some (sent_list ++ [digest_id]))

/-! ### Seen-paper memory (arxiv_digest/memory.py) -/

/-- Contents of the `PaperMemory` JSON file: absent, unreadable/corrupt
(`read_text` raising `OSError`, or `json.loads` raising
`JSONDecodeError`), or a JSON object whose optional `"seen"` key holds a
list of paper IDs. -/
inductive MemFile
  | absent
  | corrupt
  | stored (seen? : Option (List String))
deriving DecidableEq, Repr

/-- `PaperMemory._load` (arxiv_digest/memory.py lines 20-25), run at
construction time: a missing file yields the empty set; reading or
parsing an existing file is NOT guarded by any `try`, so an unreadable or
corrupt file makes the constructor raise (`Except.error`). -/
def memory_load : MemFile → Except String (List String)
  | .absent => .ok []
  | .corrupt => .error "JSONDecodeError"
  | .stored none => .ok []
  | .stored (some l) => .ok l

/-! ### Idempotent send pipeline (daily_research_digest/digest_send.py,
`async_main`, lines 176-284) -/

/-- The slice of `DigestEmailConfig` that `async_main` branches on. -/
structure DigestEmailConfig where
  recipients : List String
  subject : String
  from_addr : String
  timezone : String
  window : String
  smtpPresent : Bool
  state_s3_uri : Option String
deriving DecidableEq, Repr

/-- Collaborator calls performed during one `async_main` run. -/
inductive SendEffect
  | backendAlreadySent (digest_id : DigestIdContent)
  | generateDigest
  | sendEmail (to_addrs : List String)
  | backendMarkSent (digest_id : DigestIdContent)
deriving DecidableEq, Repr

/-- Outcomes of the collaborators of one `async_main` run:
configuration loading (`ConfigError`), timezone lookup (`KeyError`),
the state backend's `already_sent` (raises `NotImplementedError` on the
S3 stub), digest generation (any exception), and the SMTP send
(`EmailSendError`).  `windowStartIso`/`windowEndIso` are the isoformat
strings of `now - parse_window(...)` and `now`. -/
structure SendEnv where
  configResult : Except String DigestEmailConfig
  tzResult : Except String Unit
  windowStartIso : String
  windowEndIso : String
  alreadySentResult : Except String Bool
  generateResult : Except String (List Paper)
  sendResult : Except String Unit

/-- `async_main` (digest_send.py lines 176-284): load config, compute the
window and digest ID, check `already_sent` (a `true` answer is a
successful no-op), generate, mark-and-skip on an empty digest, render,
send, and mark sent only after a successful delivery.  Returns the
process exit code and the collaborator-call trace. -/
def async_main (env : SendEnv) : ℕ × List SendEffect :=
  match env.configResult with
  | .error _ => (1, [])
  | .ok config =>
    match env.tzResult with
    | .error _ => (1, [])
    | .ok _ =>
      let digest_id :=
        compute_digest_id env.windowStartIso env.windowEndIso config.recipients config.subject
      let tr0 := [SendEffect.backendAlreadySent digest_id]
      match env.alreadySentResult with
      | .error _ => (1, tr0)
      | .ok true => (0, tr0)
      | .ok false =>
        let tr1 := tr0 ++ [SendEffect.generateDigest]
        match env.generateResult with
        | .error _ => (1, tr1)
        | .ok items =>
          if items.isEmpty then (0, tr1 ++ [SendEffect.backendMarkSent digest_id])
          else if config.smtpPresent then
            let tr2 := tr1 ++ [SendEffect.sendEmail config.recipients]
            match env.sendResult with
            | .error _ => (1, tr2)
            | .ok _ => (0, tr2 ++ [SendEffect.backendMarkSent digest_id])
          else (1, tr1)

/-! ### Derived and specification-side definitions used by the claims -/

/-- The merged-fetch list of the Generator's fetch phase: the successive
`_add_unique_papers` calls over the per-source result lists in
source-declaration order, starting from an empty list and an empty
seen-id set (digest.py lines 71-101). -/
def mergeAll (fetches : List (List Paper)) : List Paper :=
  (fetches.foldl
    (fun acc new =>
      let r := add_unique_papers acc.1 new acc.2
      (r.1, r.2.1))
    (([] : List Paper), ([] : List String))).1

/-- Keep the first occurrence of every paper ID, in encounter order,
given the IDs already seen. -/
def firstOccurrencesAux (seen : List String) : List Paper → List Paper
  | [] => []
  | p :: rest =>
      if seen.contains p.arxiv_id then firstOccurrencesAux seen rest
      else p :: firstOccurrencesAux (seen ++ [p.arxiv_id]) rest

/-- Keep the first occurrence of every paper ID, in encounter order. -/
def firstOccurrences (l : List Paper) : List Paper :=
  firstOccurrencesAux [] l

/-- Modelled from the spec: the merge behaviour §4.1/§8 ascribe to the
fetch phase — one record per unique ID keeping the first writer's
identity, with the h-index/upvote fields equal to the first non-null
values encountered across sources in source-declaration order. -/
def specMergeFillIn (allPapers : List Paper) : List Paper :=
  (firstOccurrences allPapers).map (fun f =>
    let sightings := allPapers.filter (fun p => p.arxiv_id == f.arxiv_id)
    { f with
      author_h_indices := (sightings.filterMap (fun p => p.author_h_indices)).head?
      huggingface_upvotes := (sightings.filterMap (fun p => p.huggingface_upvotes)).head? })

/-- Descending blended-quality order (the sort key the spec's quality
blend phase prescribes); unset scores read as 0. -/
def byQualityDesc (p q : Paper) : Prop :=
  q.quality_score.getD 0 ≤ p.quality_score.getD 0

instance : DecidableRel byQualityDesc := fun p q =>
  inferInstanceAs (Decidable (q.quality_score.getD 0 ≤ p.quality_score.getD 0))

instance : IsTotal Paper byQualityDesc :=
  ⟨fun p q => le_total (q.quality_score.getD 0) (p.quality_score.getD 0)⟩

instance : IsTrans Paper byQualityDesc :=
  ⟨fun _ _ _ h1 h2 => le_trans h2 h1⟩

/-- Modelled from the spec: the final ordering §4.1 ascribes to the
quality blend phase — run the Quality Blender over the ranked (and
boosted) list, stably sort by the blended `quality_score` descending,
then truncate to `top_n`. -/
def specQualityBlendFinal (ranked : List Paper) (top_n : ℕ) : List Paper :=
  (List.insertionSort byQualityDesc (compute_quality_scores ranked none none)).take top_n

/-! ### Concrete inputs used by witnesses and counterexamples -/

/-- A minimal well-formed paper record. -/
def samplePaper : Paper :=
  { arxiv_id := "2401.00001"
    title := "Test Paper"
    abstract := "An abstract."
    authors := ["Alice Smith"]
    categories := ["cs.AI"]
    published := "2024-01-15"
    updated := "2024-01-15"
    link := "https://arxiv.org/abs/2401.00001" }

/-- First sighting of a duplicated ID: no quality signals. -/
def dupFirst : Paper := { samplePaper with arxiv_id := "p1" }

/-- Later sighting of the same ID carrying h-index and upvote data. -/
def dupSecond : Paper :=
  { samplePaper with
      arxiv_id := "p1"
      author_h_indices := some [50]
      huggingface_upvotes := some 7 }

/-- A paper whose recorded per-author h-index is negative. -/
def negHPaper : Paper :=
  { samplePaper with relevance_score := 5, author_h_indices := some [-100] }

/-- A paper with a positive average h-index and relevance 7. -/
def posHPaper : Paper :=
  { samplePaper with relevance_score := 7, author_h_indices := some [50] }

/-- The record the Quality Blender produces for `posHPaper`. -/
def posHBlended : Paper :=
  (compute_quality_scores [posHPaper] none none).headD samplePaper

/-- Ranked paper `a`: relevance 5.4, no quality signals. -/
def paperRelA : Paper :=
  { samplePaper with arxiv_id := "a", relevance_score := 27 / 5 }

/-- Ranked paper `b`: relevance 5.0, maximal batch h-index. -/
def paperRelB : Paper :=
  { samplePaper with arxiv_id := "b", relevance_score := 5, author_h_indices := some [100] }

/-- A generator environment in which every collaborator succeeds and the
arXiv fetch returns the two ranked papers. -/
def envC1 : GenEnv :=
  { arxivResult := .ok [paperRelA, paperRelB]
    hfResult := .ok []
    ssResult := .ok []
    llmResult := .ok ()
    rankResult := fun _ => .ok [paperRelA, paperRelB]
    recordResult := .ok ()
    saveResult := .ok ()
    nowDate := "2024-01-15"
    nowIso := "2024-01-15T12:00:00+00:00" }

/-- A configuration selecting one final paper. -/
def cfgC1 : DigestConfig :=
  { categories := ["cs.AI"], interests := "machine learning", top_n := 1 }

/-- The initial generator state. -/
def st0 : DigestState := {}

/-- A generator state with a run in flight. -/
def stBusy : DigestState := { is_generating := true }

/-- A concrete email configuration for the send pipeline. -/
def sendCfg : DigestEmailConfig :=
  { recipients := ["a@b.com", "c@d.com"]
    subject := "Daily Research Digest {date}"
    from_addr := "digest@example.com"
    timezone := "UTC"
    window := "24h"
    smtpPresent := true
    state_s3_uri := none }

/-- A send-pipeline environment whose state backend answers
`already_sent = true`. -/
def envSendSkip : SendEnv :=
  { configResult := .ok sendCfg
    tzResult := .ok ()
    windowStartIso := "2024-01-14T06:00:00+00:00"
    windowEndIso := "2024-01-15T06:00:00+00:00"
    alreadySentResult := .ok true
    generateResult := .ok [samplePaper]
    sendResult := .ok () }

/-! ### Theorems settling the claims -/

/-- C10: for every digest ID and every prior state-file content, after
`LocalFileStateBackend.mark_sent(digest_id)` returns, `already_sent
(digest_id)` returns true (round-trip of the sent-marker backend). -/
theorem mark_sent_already_sent_roundtrip (file : SentFile) (digest_id : String) :
    already_sent (mark_sent file digest_id) digest_id = true := by
  unfold already_sent mark_sent
  by_cases h : (load_sent file).contains digest_id = true
  · rw [if_pos h]
    exact h
  · rw [if_neg h]
    simp [load_sent]

/-- C8 counterexample: an existing-but-corrupt memory file does not fall
back to the empty seen-set at load time — `PaperMemory._load` raises
(the `JSONDecodeError` escapes the constructor). -/
theorem memory_load_corrupt_raises :
    memory_load MemFile.corrupt = Except.error "JSONDecodeError" := rfl

/-- C8 amended: only a *missing* memory file is treated as an empty
seen-set at load time; an existing unreadable or corrupt file makes
construction raise instead of falling back. -/
theorem memory_load_fallback_only_for_missing_file :
    memory_load MemFile.absent = Except.ok []
    ∧ memory_load MemFile.corrupt = Except.error "JSONDecodeError"
    ∧ ∀ seen?, memory_load (MemFile.stored seen?) = Except.ok (seen?.getD []) := by
  refine ⟨rfl, rfl, fun seen? => ?_⟩
  cases seen? <;> rfl

/-- C7: if `is_generating` is already set, `generate` returns
`already_generating` immediately, the generator state is untouched
(`last_digest` kept, errors not cleared), and no collaborator call —
fetch, memory write or storage write — happens. -/
theorem generate_single_flight (env : GenEnv) (memory : Option (List String))
    (config : DigestConfig) (state : DigestState)
    (h : state.is_generating = true) :
    generate env memory config state = (GenResult.alreadyGenerating, state, []) := by
  unfold generate
  simp [h]

/-- C7 witness. -/
theorem generate_single_flight_witness :
    generate envC1 none cfgC1 stBusy = (GenResult.alreadyGenerating, stBusy, []) :=
  generate_single_flight envC1 none cfgC1 stBusy rfl

/-- C4: whenever a run actually starts (the single-flight guard lets it
through), `is_generating` is false in the state `generate` leaves behind,
whatever the outcome — completion, business error, or caught exception —
because the `finally` reset is unconditional. -/
theorem generate_resets_is_generating (env : GenEnv) (memory : Option (List String))
    (config : DigestConfig) (state : DigestState)
    (h : state.is_generating = false) :
    ((generate env memory config state).2.1).is_generating = false := by
  unfold generate
  simp [h]

/-- C4 witness. -/
theorem generate_resets_is_generating_witness :
    ((generate envC1 none cfgC1 st0).2.1).is_generating = false :=
  generate_resets_is_generating envC1 none cfgC1 st0 rfl

/-- C6: when the state backend answers `already_sent = true`, the run
exits with code 0 and the only collaborator call in its trace is that
idempotency check — in particular no digest generation and no Email
Provider call happen. -/
theorem send_pipeline_skips_when_already_sent (env : SendEnv) (c : DigestEmailConfig)
    (hc : env.configResult = Except.ok c)
    (ht : env.tzResult = Except.ok ())
    (hs : env.alreadySentResult = Except.ok true) :
    (async_main env).1 = 0
    ∧ (async_main env).2
        = [SendEffect.backendAlreadySent
            (compute_digest_id env.windowStartIso env.windowEndIso c.recipients c.subject)]
    ∧ ∀ e ∈ (async_main env).2,
        (∀ t, e ≠ SendEffect.sendEmail t) ∧ e ≠ SendEffect.generateDigest := by
  unfold async_main
  rw [hc, ht, hs]
  refine ⟨rfl, rfl, ?_⟩
  intro e he
  simp only [List.mem_singleton] at he
  subst he
  exact ⟨fun t => by simp, by simp⟩

/-- C6 witness. -/
theorem send_pipeline_skips_witness :
    (async_main envSendSkip).1 = 0
    ∧ (async_main envSendSkip).2
        = [SendEffect.backendAlreadySent
            (compute_digest_id envSendSkip.windowStartIso envSendSkip.windowEndIso
              sendCfg.recipients sendCfg.subject)]
    ∧ ∀ e ∈ (async_main envSendSkip).2,
        (∀ t, e ≠ SendEffect.sendEmail t) ∧ e ≠ SendEffect.generateDigest :=
  send_pipeline_skips_when_already_sent envSendSkip sendCfg rfl rfl rfl

/-- C5 counterexample: a change to the subject template that only adds
leading/trailing whitespace does NOT change the digest identity, because
`compute_digest_id` strips the subject before hashing — so "any change to
the subject template changes the identity" fails as stated. -/
theorem compute_digest_id_subject_whitespace_counterexample :
    compute_digest_id "2024-01-15T06:00:00+00:00" "2024-01-16T06:00:00+00:00"
        ["a@b.com"] "Digest"
      = compute_digest_id "2024-01-15T06:00:00+00:00" "2024-01-16T06:00:00+00:00"
        ["a@b.com"] " Digest "
    ∧ "Digest" ≠ " Digest " := by
  exact ⟨by decide, by decide⟩

/-- C5 amended: the digest identity is invariant under any permutation
and any case/outer-whitespace change of the recipient list (anything
fixing the multiset of normalized recipients), while equal identities
force equal `window_start`, equal `window_end`, and equal *stripped*
subject templates — so any change to a window bound, or any subject
change that survives stripping, changes the identity. -/
theorem compute_digest_id_amended :
    (∀ (ws we subj : String) (r1 r2 : List String),
        (r1.map (fun r => pyStrip (pyLower r))).Perm
          (r2.map (fun r => pyStrip (pyLower r))) →
        compute_digest_id ws we r1 subj = compute_digest_id ws we r2 subj)
    ∧ ∀ (ws ws' we we' subj subj' : String) (r r' : List String),
        compute_digest_id ws we r subj = compute_digest_id ws' we' r' subj' →
        ws = ws' ∧ we = we' ∧ pyStrip subj = pyStrip subj' := by
  constructor
  · intro ws we subj r1 r2 hperm
    unfold compute_digest_id
    have hsort : List.insertionSort pyStrLe (r1.map fun r => pyStrip (pyLower r))
        = List.insertionSort pyStrLe (r2.map fun r => pyStrip (pyLower r)) :=
      List.eq_of_perm_of_sorted
        (((List.perm_insertionSort _ _).trans hperm).trans
          (List.perm_insertionSort _ _).symm)
        (List.sorted_insertionSort _ _) (List.sorted_insertionSort _ _)
    rw [hsort]
  · intro ws ws' we we' subj subj' r r' h
    exact ⟨congrArg DigestIdContent.window_start h,
           congrArg DigestIdContent.window_end h,
           congrArg DigestIdContent.subject_template h⟩

/-- C5 witness: reordering the recipients, changing their case and adding
outer whitespace leaves the identity unchanged. -/
theorem compute_digest_id_amended_witness :
    compute_digest_id "2024-01-15T06:00:00+00:00" "2024-01-16T06:00:00+00:00"
        ["B@x.com", "a@y.com"] "S"
      = compute_digest_id "2024-01-15T06:00:00+00:00" "2024-01-16T06:00:00+00:00"
        ["a@y.com", " b@x.com "] "S" :=
  compute_digest_id_amended.1 "2024-01-15T06:00:00+00:00" "2024-01-16T06:00:00+00:00"
    "S" ["B@x.com", "a@y.com"] ["a@y.com", " b@x.com "] (by decide)

/-- C3 counterexample: a response that parses to a JSON object *missing
the `"score"` key* is not given the 5.0/"Unable to rank" fallback:
`result.get("score", 0)` silently defaults, so the paper gets score 0.0
and whatever reason the object carries. -/
theorem rank_paper_missing_score_counterexample :
    rank_paper samplePaper (ParsedResponse.parsed [("reason", JsonVal.jstr "ok")])
      = Except.ok { samplePaper with relevance_score := 0, relevance_reason := "ok" }
    ∧ (0 : ℚ) ≠ 5 ∧ "ok" ≠ "Unable to rank" := by
  refine ⟨rfl, by norm_num, by decide⟩

/-- C3 amended: `rank_paper` never propagates a *parse* failure — a JSON
decode error, or a score value that is a non-numeric string, yields the
neutral fallback score 5.0 with reason "Unable to rank"; but a response
that parses to an object with no `"score"` key is not treated as a
failure: it yields score `float(0) = 0.0` and the object's reason value
(default `""`). -/
theorem rank_paper_parse_failure_policy (paper : Paper)
    (obj : List (String × JsonVal)) :
    (rank_paper paper ParsedResponse.parseError
        = Except.ok { paper with relevance_score := 5,
                                 relevance_reason := "Unable to rank" })
    ∧ (pyFloat (objGet obj "score" (JsonVal.jnum 0)) = Except.error PyExn.valueError →
        rank_paper paper (ParsedResponse.parsed obj)
          = Except.ok { paper with relevance_score := 5,
                                   relevance_reason := "Unable to rank" })
    ∧ (obj.find? (fun kv => kv.1 == "score") = none →
        rank_paper paper (ParsedResponse.parsed obj)
          = Except.ok { paper with
              relevance_score := 0,
              relevance_reason := jsonValAsPyStr (objGet obj "reason" (JsonVal.jstr "")) }) := by
  refine ⟨rfl, ?_, ?_⟩
  · intro h
    unfold rank_paper
    dsimp only
    rw [h]
  · intro h
    have hg : objGet obj "score" (JsonVal.jnum 0) = JsonVal.jnum 0 := by
      unfold objGet
      rw [h]
    unfold rank_paper
    dsimp only
    rw [hg]
    rfl

/-- C3 witness: a non-numeric score string gets the neutral fallback. -/
theorem rank_paper_parse_failure_policy_witness :
    rank_paper samplePaper (ParsedResponse.parsed [("score", JsonVal.jstr "high")])
      = Except.ok { samplePaper with relevance_score := 5,
                                     relevance_reason := "Unable to rank" } :=
  (rank_paper_parse_failure_policy samplePaper [("score", JsonVal.jstr "high")]).2.1 rfl

/-- `_add_unique_papers` appends exactly the first occurrences of unseen
IDs and extends the seen set with their IDs. -/
theorem add_unique_papers_spec (new : List Paper) :
    ∀ (papers : List Paper) (seen : List String),
      (add_unique_papers papers new seen).1 = papers ++ firstOccurrencesAux seen new
      ∧ (add_unique_papers papers new seen).2.1
          = seen ++ (firstOccurrencesAux seen new).map (fun p => p.arxiv_id) := by
  induction new with
  | nil =>
    intro papers seen
    simp [add_unique_papers, firstOccurrencesAux]
  | cons p rest ih =>
    intro papers seen
    by_cases h : seen.contains p.arxiv_id = true
    · simp only [add_unique_papers, firstOccurrencesAux, h, if_true]
      exact ih papers seen
    · simp only [add_unique_papers, firstOccurrencesAux, h, if_false]
      obtain ⟨ih1, ih2⟩ := ih (papers ++ [p]) (seen ++ [p.arxiv_id])
      constructor
      · rw [ih1]
        simp
      · rw [ih2]
        simp

/-- First-occurrence filtering over a concatenation. -/
theorem firstOccurrencesAux_append (l1 : List Paper) :
    ∀ (seen : List String) (l2 : List Paper),
      firstOccurrencesAux seen (l1 ++ l2)
        = firstOccurrencesAux seen l1
          ++ firstOccurrencesAux
              (seen ++ (firstOccurrencesAux seen l1).map (fun p => p.arxiv_id)) l2 := by
  induction l1 with
  | nil =>
    intro seen l2
    simp [firstOccurrencesAux]
  | cons p rest ih =>
    intro seen l2
    rw [List.cons_append]
    simp only [firstOccurrencesAux]
    by_cases h : seen.contains p.arxiv_id = true
    · rw [if_pos h, if_pos h]
      exact ih seen l2
    · rw [if_neg h, if_neg h]
      rw [ih (seen ++ [p.arxiv_id]) l2]
      simp

/-- The merge fold computed from any accumulator. -/
theorem mergeAll_fold (fetches : List (List Paper)) :
    ∀ (papers : List Paper) (seen : List String),
      (fetches.foldl
        (fun acc new =>
          let r := add_unique_papers acc.1 new acc.2
          (r.1, r.2.1))
        (papers, seen))
      = (papers ++ firstOccurrencesAux seen fetches.flatten,
         seen ++ (firstOccurrencesAux seen fetches.flatten).map (fun p => p.arxiv_id)) := by
  induction fetches with
  | nil =>
    intro papers seen
    simp [firstOccurrencesAux]
  | cons f fs ih =>
    intro papers seen
    simp only [List.foldl_cons, List.flatten_cons]
    obtain ⟨h1, h2⟩ := add_unique_papers_spec f papers seen
    rw [h1, h2, ih, firstOccurrencesAux_append]
    simp [List.append_assoc]

/-- First-occurrence filtering yields pairwise-distinct IDs, none of
which was already seen. -/
theorem firstOccurrencesAux_nodup (l : List Paper) :
    ∀ (seen : List String),
      (((firstOccurrencesAux seen l).map (fun p => p.arxiv_id)).Nodup
      ∧ ∀ i ∈ (firstOccurrencesAux seen l).map (fun p => p.arxiv_id), i ∉ seen) := by
  induction l with
  | nil =>
    intro seen
    simp [firstOccurrencesAux]
  | cons p rest ih =>
    intro seen
    simp only [firstOccurrencesAux]
    by_cases h : seen.contains p.arxiv_id = true
    · rw [if_pos h]
      exact ih seen
    · rw [if_neg h]
      obtain ⟨ihn, ihs⟩ := ih (seen ++ [p.arxiv_id])
      have hnotin : p.arxiv_id ∉ seen := by simpa using h
      have hmem : p.arxiv_id ∉
          (firstOccurrencesAux (seen ++ [p.arxiv_id]) rest).map (fun q => q.arxiv_id) := by
        intro hc
        exact (ihs _ hc) (by simp)
      refine ⟨?_, ?_⟩
      · rw [List.map_cons, List.nodup_cons]
        exact ⟨hmem, ihn⟩
      · intro i hi
        rw [List.map_cons, List.mem_cons] at hi
        rcases hi with hi | hi
        · subst hi
          exact hnotin
        · intro hc
          exact (ihs i hi) (by simp [hc])

/-- C2 counterexample: with two sources sighting the same ID `p1` — the
first without h-index/upvote data, the second with both — the merged list
keeps the first record *unchanged*: the later sighting is discarded
entirely, and no field fill-in happens, contrary to the spec's merge
description. -/
theorem merge_no_fillin_counterexample :
    mergeAll [[dupFirst], [dupSecond]] = [dupFirst]
    ∧ specMergeFillIn (List.flatten [[dupFirst], [dupSecond]])
        = [{ dupFirst with
              author_h_indices := some [50]
              huggingface_upvotes := some 7 }]
    ∧ mergeAll [[dupFirst], [dupSecond]]
        ≠ specMergeFillIn (List.flatten [[dupFirst], [dupSecond]]) := by
  refine ⟨by decide, by decide, by decide⟩

/-- C2 amended: the merged list of the fetch phase has exactly one record
per unique ID (the mapped IDs are pairwise distinct), and each kept
record is the verbatim first-encountered record in source-declaration
order — later duplicate sightings are dropped whole, so no field of the
first record is ever filled in or overwritten. -/
theorem mergeAll_keeps_first_occurrences (fetches : List (List Paper)) :
    mergeAll fetches = firstOccurrences fetches.flatten
    ∧ ((mergeAll fetches).map (fun p => p.arxiv_id)).Nodup := by
  have hfold := mergeAll_fold fetches [] []
  have h1 : mergeAll fetches = firstOccurrencesAux [] fetches.flatten := by
    unfold mergeAll
    rw [hfold]
    simp
  refine ⟨h1, ?_⟩
  rw [h1]
  exact (firstOccurrencesAux_nodup fetches.flatten []).1

/-- With a ceiling ≥ 1 and nonnegative recorded h-indices, `h_factor`
lies in `[0, 1]`. -/
theorem h_factor_bounds (paper : Paper) (mh : ℚ) (hmh : 1 ≤ mh)
    (hh : ∀ hs, paper.author_h_indices = some hs → ∀ h ∈ hs, (0 : ℤ) ≤ h) :
    0 ≤ h_factor paper mh ∧ h_factor paper mh ≤ 1 := by
  unfold h_factor
  rcases hA : paper.author_h_indices with _ | hs
  · simp
  · dsimp only
    by_cases he : hs.isEmpty = true
    · simp [he]
    · rw [if_neg he]
      have hsum : (0 : ℤ) ≤ hs.sum := List.sum_nonneg (fun x hx => hh hs hA x hx)
      have h0 : (0 : ℚ) ≤ ((hs.sum : ℤ) : ℚ) / (hs.length : ℚ) / mh := by
        apply div_nonneg
        · apply div_nonneg
          · exact_mod_cast hsum
          · positivity
        · linarith
      exact ⟨le_min h0 zero_le_one, min_le_right _ _⟩

/-- With a ceiling ≥ 1, `upvotes_factor` lies in `[0, 1]`. -/
theorem upvotes_factor_bounds (paper : Paper) (mu : ℚ) (hmu : 1 ≤ mu) :
    0 ≤ upvotes_factor paper mu ∧ upvotes_factor paper mu ≤ 1 := by
  unfold upvotes_factor
  rcases hU : paper.huggingface_upvotes with _ | u
  · simp
  · dsimp only
    by_cases hpos : 0 < u
    · rw [if_pos hpos]
      have h0 : (0 : ℚ) ≤ (u : ℚ) / mu := by
        apply div_nonneg
        · exact_mod_cast hpos.le
        · linarith
      exact ⟨le_min h0 zero_le_one, min_le_right _ _⟩
    · rw [if_neg hpos]
      exact ⟨le_refl 0, zero_le_one⟩

/-- Per-paper quality bounds under ceilings ≥ 1, nonnegative h-indices
and nonnegative relevance. -/
theorem compute_quality_score_bounds (paper : Paper) (mh mu : ℚ)
    (hmh : 1 ≤ mh) (hmu : 1 ≤ mu)
    (hh : ∀ hs, paper.author_h_indices = some hs → ∀ h ∈ hs, (0 : ℤ) ≤ h)
    (hrel : 0 ≤ paper.relevance_score) :
    paper.relevance_score ≤ compute_quality_score paper mh mu
    ∧ compute_quality_score paper mh mu ≤ paper.relevance_score * (6 / 5) := by
  obtain ⟨hf0, hf1⟩ := h_factor_bounds paper mh hmh hh
  obtain ⟨hu0, hu1⟩ := upvotes_factor_bounds paper mu hmu
  unfold compute_quality_score
  dsimp only
  constructor
  · nlinarith
  · nlinarith

/-- A paper lacking both signals keeps its relevance score exactly. -/
theorem compute_quality_score_no_signals (paper : Paper) (mh mu : ℚ)
    (h1 : optListTruthy paper.author_h_indices = false)
    (h2 : paper.huggingface_upvotes = none) :
    compute_quality_score paper mh mu = paper.relevance_score := by
  have hf : h_factor paper mh = 0 := by
    unfold h_factor
    rcases hA : paper.author_h_indices with _ | hs
    · rfl
    · rcases hs with _ | ⟨a, t⟩
      · simp
      · rw [hA] at h1
        simp [optListTruthy] at h1
  have hu : upvotes_factor paper mu = 0 := by
    unfold upvotes_factor
    rw [h2]
  unfold compute_quality_score
  rw [hf, hu]
  ring

/-- C9 amended: for every batch whose recorded per-author h-indices are
nonnegative (as genuine h-index data always is), every blended paper with
nonnegative relevance has a populated quality score with
`relevance_score ≤ quality_score ≤ relevance_score * 1.2`, and a paper
lacking both h-index and upvote data gets `quality_score =
relevance_score` exactly. -/
theorem compute_quality_scores_blend_bounds (papers : List Paper) (mh? mu? : Option ℚ)
    (hh : ∀ q ∈ papers, ∀ hs, q.author_h_indices = some hs → ∀ h ∈ hs, (0 : ℤ) ≤ h) :
    ∀ p ∈ compute_quality_scores papers mh? mu?,
      0 ≤ p.relevance_score →
      p.quality_score.isSome = true
      ∧ p.relevance_score ≤ p.quality_score.getD 0
      ∧ p.quality_score.getD 0 ≤ p.relevance_score * (6 / 5)
      ∧ (optListTruthy p.author_h_indices = false → p.huggingface_upvotes = none →
          p.quality_score = some p.relevance_score) := by
  intro p hp hrel
  unfold compute_quality_scores at hp
  by_cases hemp : papers.isEmpty = true
  · rw [if_pos hemp] at hp
    rw [List.isEmpty_iff] at hemp
    subst hemp
    simp at hp
  · rw [if_neg hemp] at hp
    dsimp only at hp
    rw [List.mem_map] at hp
    obtain ⟨orig, horig, rfl⟩ := hp
    obtain ⟨hlow, hhigh⟩ :=
      compute_quality_score_bounds orig _ _ (le_max_right _ _) (le_max_right _ _)
        (hh orig horig) (by simpa using hrel)
    refine ⟨rfl, by simpa using hlow, by simpa using hhigh, ?_⟩
    intro h1 h2
    simp only at h1 h2 ⊢
    rw [compute_quality_score_no_signals orig _ _ h1 h2]

/-- C9 counterexample: a paper with relevance 5 and a (type-admissible)
negative recorded h-index gets quality_score −45 < 5 from the Quality
Blender — the boost is not non-negative as claimed, because `h_factor`
is capped at 1 from above but never floored at 0. -/
theorem quality_negative_h_counterexample :
    (compute_quality_scores [negHPaper] none none).map (fun p => p.quality_score)
      = [some (-45)]
    ∧ ¬ ((5 : ℚ) ≤ -45) ∧ negHPaper.relevance_score = 5 := by
  refine ⟨?_, by norm_num, rfl⟩
  unfold compute_quality_scores
  norm_num [negHPaper, samplePaper, optListTruthy, listMaxInt,
    compute_quality_score, h_factor, upvotes_factor, min_def, max_def]

/-- C9 witness: blending a paper with relevance 7 and h-indices `[50]`
yields a populated quality score within the claimed bounds. -/
theorem compute_quality_scores_blend_bounds_witness :
    posHBlended.quality_score.isSome = true
    ∧ posHBlended.relevance_score ≤ posHBlended.quality_score.getD 0
    ∧ posHBlended.quality_score.getD 0 ≤ posHBlended.relevance_score * (6 / 5) := by
  have hmem : posHBlended ∈ compute_quality_scores [posHPaper] none none := by
    unfold posHBlended compute_quality_scores
    simp
  have hrel : 0 ≤ posHBlended.relevance_score := by
    unfold posHBlended compute_quality_scores
    simp [posHPaper, samplePaper]
  have hh : ∀ q ∈ [posHPaper], ∀ hs, q.author_h_indices = some hs →
      ∀ h ∈ hs, (0 : ℤ) ≤ h := by
    intro q hq hs hhs h hmem2
    simp only [List.mem_singleton] at hq
    subst hq
    simp [posHPaper, samplePaper] at hhs
    subst hhs
    simp only [List.mem_singleton] at hmem2
    subst hmem2
    decide
  obtain ⟨h1, h2, h3, _⟩ :=
    compute_quality_scores_blend_bounds [posHPaper] none none hh posHBlended hmem hrel
  exact ⟨h1, h2, h3⟩

set_option maxHeartbeats 1000000 in
/-- A completed post-fetch run passes some filtered list to the ranker
and takes the first `top_n` of the boosted ranking as the digest's
papers. -/
theorem generatePostFetch_completed (env : GenEnv) (memory : Option (List String))
    (config : DigestConfig) (ld0 : Option String)
    (papersAll : List Paper) (tr3 : List GenEffect) (d : DigestDoc)
    (h : (generatePostFetch env memory config ld0 papersAll tr3).1
          = GenResult.completed d) :
    ∃ papersF ranked_papers,
      env.rankResult papersF = Except.ok ranked_papers
      ∧ d.papers = (rankedAfterBoost config ranked_papers).take config.top_n := by
  unfold generatePostFetch at h
  dsimp only at h
  repeat' split at h
  all_goals try (apply absurd h; simp; done)
  simp only [GenResult.completed.injEq] at h
  subst h
  refine ⟨?_, ?_, ?_, ?_⟩
  rotate_left 2
  · assumption
  · rfl

/-- Lifting of `generatePostFetch_completed` to the whole `try` body. -/
theorem generateBody_completed (env : GenEnv) (memory : Option (List String))
    (config : DigestConfig) (ld0 : Option String) (d : DigestDoc)
    (h : (generateBody env memory config ld0).1 = GenResult.completed d) :
    ∃ papersF ranked_papers,
      env.rankResult papersF = Except.ok ranked_papers
      ∧ d.papers = (rankedAfterBoost config ranked_papers).take config.top_n := by
  unfold generateBody at h
  dsimp only at h
  split at h
  · exact absurd h (by simp)
  · exact generatePostFetch_completed _ _ _ _ _ _ _ h

/-- The boost phase preserves descending-relevance sortedness (it either
leaves the ranker's order alone or re-sorts). -/
theorem rankedAfterBoost_sorted (config : DigestConfig) (R : List Paper)
    (hR : List.Sorted byRelevanceDesc R) :
    List.Sorted byRelevanceDesc (rankedAfterBoost config R) := by
  unfold rankedAfterBoost
  split
  · exact hR
  · exact hR
  · unfold boostPhase
    exact List.sorted_insertionSort byRelevanceDesc _

/-- The boost phase never touches `quality_score`. -/
theorem rankedAfterBoost_quality (config : DigestConfig) (R : List Paper)
    (hq : ∀ p ∈ R, p.quality_score = none) :
    ∀ p ∈ rankedAfterBoost config R, p.quality_score = none := by
  unfold rankedAfterBoost
  split
  · exact hq
  · exact hq
  · intro p hp
    unfold boostPhase at hp
    have hp' : p ∈ applyBoost _ config.author_boost R :=
      (List.perm_insertionSort byRelevanceDesc _).mem_iff.mp hp
    unfold applyBoost at hp'
    dsimp only at hp'
    rw [List.mem_map] at hp'
    obtain ⟨q, hqmem, rfl⟩ := hp'
    split
    · exact hq q hqmem
    · exact hq q hqmem

/-- Inserting an element into any list moves it past exactly the
strictly-higher-relevance entries, so the key-class sublists are
preserved except for the inserted element heading its own class. -/
theorem orderedInsert_relFilter (a : Paper) (k : ℚ) (s : List Paper) :
    (List.orderedInsert byRelevanceDesc a s).filter (fun p => decide (p.relevance_score = k))
      = if a.relevance_score = k
        then a :: s.filter (fun p => decide (p.relevance_score = k))
        else s.filter (fun p => decide (p.relevance_score = k)) := by
  induction s with
  | nil =>
    by_cases hak : a.relevance_score = k <;>
      simp [List.orderedInsert, List.filter_cons, hak]
  | cons b t ih =>
    by_cases hab : byRelevanceDesc a b
    · rw [List.orderedInsert, if_pos hab]
      by_cases hak : a.relevance_score = k <;>
        simp [List.filter_cons, hak]
    · rw [List.orderedInsert, if_neg hab]
      have hlt : a.relevance_score < b.relevance_score := by
        have : ¬ (b.relevance_score ≤ a.relevance_score) := hab
        exact lt_of_not_le this
      rw [List.filter_cons, ih]
      by_cases hak : a.relevance_score = k
      · have hbk : ¬ (b.relevance_score = k) := by
          rw [← hak]
          exact ne_of_gt hlt
        simp [List.filter_cons, hak, hbk]
      · by_cases hbk : b.relevance_score = k <;>
          simp [List.filter_cons, hak, hbk]

/-- Stability of the final sort: insertion sort by descending relevance
keeps every equal-relevance class in its input order. -/
theorem insertionSort_relFilter (k : ℚ) (l : List Paper) :
    (List.insertionSort byRelevanceDesc l).filter (fun p => decide (p.relevance_score = k))
      = l.filter (fun p => decide (p.relevance_score = k)) := by
  induction l with
  | nil => rfl
  | cons a t ih =>
    show (List.orderedInsert byRelevanceDesc a
        (List.insertionSort byRelevanceDesc t)).filter
          (fun p => decide (p.relevance_score = k)) = _
    rw [orderedInsert_relFilter, ih]
    by_cases hak : a.relevance_score = k <;>
      simp [List.filter_cons, hak]

/-- Two relevance-descending-sorted permutations of each other with the
same equal-relevance classes are equal. -/
theorem sorted_stable_filter_unique : ∀ (S1 S2 : List Paper),
    S1.Perm S2 → List.Sorted byRelevanceDesc S1 → List.Sorted byRelevanceDesc S2 →
    (∀ k : ℚ, S1.filter (fun p => decide (p.relevance_score = k))
        = S2.filter (fun p => decide (p.relevance_score = k))) →
    S1 = S2 := by
  intro S1
  induction S1 with
  | nil =>
    intro S2 hperm _ _ _
    exact hperm.nil_eq
  | cons a T1 ih =>
    intro S2 hperm hs1 hs2 hf
    cases S2 with
    | nil => cases hperm.symm.nil_eq
    | cons b T2 =>
      have hab : a ∈ b :: T2 := hperm.subset (List.mem_cons_self a T1)
      have hba : b ∈ a :: T1 := hperm.symm.subset (List.mem_cons_self b T2)
      have h1 : a.relevance_score ≤ b.relevance_score := by
        rcases List.mem_cons.mp hab with h | h
        · rw [h]
        · exact List.rel_of_sorted_cons hs2 a h
      have h2 : b.relevance_score ≤ a.relevance_score := by
        rcases List.mem_cons.mp hba with h | h
        · rw [h]
        · exact List.rel_of_sorted_cons hs1 b h
      have hkey : b.relevance_score = a.relevance_score := le_antisymm h2 h1
      have hk := hf a.relevance_score
      rw [List.filter_cons, List.filter_cons] at hk
      simp only [decide_eq_true_eq, hkey, if_pos rfl] at hk
      obtain ⟨hab2, htail⟩ := List.cons.inj hk
      subst hab2
      have hT : T1 = T2 := by
        refine ih T2 hperm.cons_inv hs1.of_cons hs2.of_cons (fun k => ?_)
        have hfk := hf k
        rw [List.filter_cons, List.filter_cons] at hfk
        by_cases hik : a.relevance_score = k
        · simp only [decide_eq_true_eq, hik, if_pos rfl] at hfk
          exact (List.cons.inj hfk).2
        · simpa only [decide_eq_true_eq, if_neg hik] using hfk
      rw [hT]

/-- The three conditions of `isStableRelevanceDescSort` pin the sorted
list uniquely: "the" stable descending-relevance sort is well defined. -/
theorem isStableRelevanceDescSort_unique (L S1 S2 : List Paper)
    (h1 : isStableRelevanceDescSort L S1) (h2 : isStableRelevanceDescSort L S2) :
    S1 = S2 :=
  sorted_stable_filter_unique S1 S2 (h1.1.symm.trans h2.1) h1.2.1 h2.2.1
    (fun k => (h1.2.2 k).trans (h2.2.2 k).symm)

/-- The boost phase produces exactly the stable descending-relevance
sort of the boosted list: when a boost is configured it re-sorts stably;
when none is, the ranker's already-sorted output is its own stable
sort. -/
theorem rankedAfterBoost_stable (config : DigestConfig) (R : List Paper)
    (hR : List.Sorted byRelevanceDesc R) :
    isStableRelevanceDescSort (boostedPapers config R) (rankedAfterBoost config R) := by
  unfold boostedPapers rankedAfterBoost
  split
  · exact ⟨List.Perm.refl R, hR, fun k => rfl⟩
  · exact ⟨List.Perm.refl R, hR, fun k => rfl⟩
  · unfold boostPhase
    exact ⟨(List.perm_insertionSort byRelevanceDesc _).symm,
           List.sorted_insertionSort byRelevanceDesc _,
           fun k => insertionSort_relFilter k _⟩

/-- C1 amended: when `generate` completes, the digest's papers are
exactly the first `top_n` of the stable sort of the post-boost paper
list by *(boosted) relevance_score* descending — ties broken by the
pre-sort order, as `isStableRelevanceDescSort` demands and
`isStableRelevanceDescSort_unique` shows is unambiguous — and, since
`generate` never invokes the Quality Blender, every digest paper's
`quality_score` is exactly as the Ranker left it (`None`). -/
theorem generate_final_order (env : GenEnv) (memory : Option (List String))
    (config : DigestConfig) (state : DigestState) (d : DigestDoc)
    (st' : DigestState) (tr : List GenEffect)
    (hrank : ∀ ps R, env.rankResult ps = Except.ok R →
        List.Sorted byRelevanceDesc R ∧ ∀ p ∈ R, p.quality_score = none)
    (hgen : generate env memory config state = (GenResult.completed d, st', tr)) :
    ∃ papersF R S,
      env.rankResult papersF = Except.ok R
      ∧ isStableRelevanceDescSort (boostedPapers config R) S
      ∧ d.papers = S.take config.top_n
      ∧ ∀ p ∈ d.papers, p.quality_score = none := by
  by_cases hflag : state.is_generating = true
  · unfold generate at hgen
    rw [if_pos hflag] at hgen
    exact absurd (congrArg Prod.fst hgen) (by simp)
  · unfold generate at hgen
    rw [if_neg hflag] at hgen
    have hb : (generateBody env memory config state.last_digest).1
        = GenResult.completed d := congrArg Prod.fst hgen
    obtain ⟨papersF, R, hrk, hpapers⟩ :=
      generateBody_completed env memory config state.last_digest d hb
    obtain ⟨hsorted, hqnone⟩ := hrank papersF R hrk
    refine ⟨papersF, R, rankedAfterBoost config R, hrk,
      rankedAfterBoost_stable config R hsorted, hpapers, ?_⟩
    intro p hp
    rw [hpapers] at hp
    exact rankedAfterBoost_quality config R hqnone p ((List.take_sublist _ _).subset hp)

/-- C1 counterexample: ranked papers `a` (relevance 5.4, no signals) and
`b` (relevance 5.0, batch-max h-index), `top_n = 1`.  The quality-blend
ordering the spec prescribes puts `b` first (blended 5.5 > 5.4), but
`generate` — which never calls the Quality Blender — keeps `a`. -/
theorem generate_sort_key_counterexample :
    (match (generate envC1 none cfgC1 st0).1 with
     | GenResult.completed d => d.papers.map (fun p => p.arxiv_id)
     | _ => []) = ["a"]
    ∧ (specQualityBlendFinal [paperRelA, paperRelB] 1).map (fun p => p.arxiv_id) = ["b"]
    ∧ ("a" : String) ≠ "b" := by
  refine ⟨rfl, ?_, by decide⟩
  norm_num [specQualityBlendFinal, compute_quality_scores, compute_quality_score,
    h_factor, upvotes_factor, optListTruthy, listMaxInt, paperRelA, paperRelB,
    samplePaper, byQualityDesc, List.insertionSort, List.orderedInsert,
    min_def, max_def]

/-- C1 witness: the concrete run of `generate` over `envC1`. -/
theorem generate_final_order_witness :
    ∃ papersF R S,
      envC1.rankResult papersF = Except.ok R
      ∧ isStableRelevanceDescSort (boostedPapers cfgC1 R) S
      ∧ [paperRelA] = S.take cfgC1.top_n
      ∧ ∀ p ∈ [paperRelA], p.quality_score = none :=
  generate_final_order envC1 none cfgC1 st0
    { date := "2024-01-15"
      generated_at := "2024-01-15T12:00:00+00:00"
      categories := ["cs.AI"]
      interests := "machine learning"
      total_papers_fetched := 2
      papers := [paperRelA] }
    { last_digest := some "2024-01-15T12:00:00+00:00", is_generating := false, errors := [] }
    [GenEffect.fetchArxiv, GenEffect.storageSave]
    (fun ps R h => by
      have h' : [paperRelA, paperRelB] = R := by injection h
      subst h'
      constructor
      · refine List.Sorted.cons ?_ (List.sorted_singleton _)
        show paperRelB.relevance_score ≤ paperRelA.relevance_score
        norm_num [paperRelA, paperRelB, samplePaper]
      · intro p hp
        simp only [List.mem_cons, List.mem_singleton] at hp
        rcases hp with hp | hp | hp
        · subst hp; rfl
        · subst hp; rfl
        · cases hp)
    rfl
